import Mathlib

/-!
A shallow embedding of `src/fetch_sufu_literatures.py` (the `TextDownloader`
class and its `get_papers` method), together with theorems checking the
natural-language specification against it.

Modelling conventions:
* XML documents (as parsed by `xml.etree.ElementTree`) are finite trees of
  elements, each with a tag, an optional text payload (`element.text` is
  `None` in Python when the element carries no text) and a list of children.
* A Python value that is either a string or `None` is modelled as
  `Option String`; Python's f-string rendering of such a value is `pyFormat`
  (`None` renders as the literal string "None").
* The Entrez transport (`Bio.Entrez.esearch` / `Entrez.read` / `Entrez.efetch`)
  and the XML parser `ET.fromstring` are external to the repository; they are
  abstracted as an environment `Env` of fallible calls returning `Except`,
  where `Except.error e` stands for a raised exception with message `e`.
* Per-record processing inside the `try:` block may raise in Python for
  reasons outside the pure data path; the record loop is therefore stated
  over an arbitrary fallible extractor `ext : XmlNode → Except String Record`,
  and the concrete, non-raising data path is `extractRecord`.
-/

/-- An XML element: tag, optional text (`element.text`), children. -/
inductive XmlNode where
  | elem (tag : String) (text : Option String) (children : List XmlNode)
deriving Repr

def XmlNode.tag : XmlNode → String
  | .elem t _ _ => t

def XmlNode.text : XmlNode → Option String
  | .elem _ tx _ => tx

def XmlNode.children : XmlNode → List XmlNode
  | .elem _ _ cs => cs

mutual

/-- All proper descendants of a node in document (preorder) order; this is
the sequence `element.iter()` would visit, minus the element itself. -/
def XmlNode.descendants : XmlNode → List XmlNode
  | .elem _ _ cs => XmlNode.descList cs
termination_by structural n => n

def XmlNode.descList : List XmlNode → List XmlNode
  | [] => []
  | c :: rest => c :: XmlNode.descendants c ++ XmlNode.descList rest
termination_by structural l => l

end

/-- `element.findall(".//Tag")`: all descendants with the given tag, in
document order. -/
def findallDesc (tag : String) (n : XmlNode) : List XmlNode :=
  n.descendants.filter (fun d => d.tag = tag)

/-- `element.find(".//Tag")`: first descendant with the given tag, or `None`. -/
def findDesc (tag : String) (n : XmlNode) : Option XmlNode :=
  (findallDesc tag n).head?

/-- `element.find(".//T1/T2")`: first `T2` child of a descendant `T1`,
scanning the `T1` matches in document order. -/
def findDescChild (t1 t2 : String) (n : XmlNode) : Option XmlNode :=
  ((findallDesc t1 n).map (fun j => j.children.filter (fun c => c.tag = t2))).flatten.head?

/-- `element.find("Tag")`: first direct child with the given tag, or `None`. -/
def findChild (tag : String) (n : XmlNode) : Option XmlNode :=
  (n.children.filter (fun c => c.tag = tag)).head?

/-- Python f-string rendering of a string-or-None value: `None` renders as
the literal text "None". -/
def pyFormat : Option String → String
  | none => "None"
  | some s => s

/-- The tuple appended to `records` for each article:
`(pmid, title, author_line, journal, year, pages)`.  Every component except
`author_line` is a Python string-or-None value. -/
structure Record where
  pmid : Option String
  title : Option String
  author_line : String
  journal : Option String
  year : Option String
  pages : Option String
deriving Repr, DecidableEq

/-- Python's `str.strip()` on the character sequence: drop leading and
trailing whitespace characters. -/
def stripChars (l : List Char) : List Char :=
  ((l.dropWhile Char.isWhitespace).reverse.dropWhile Char.isWhitespace).reverse

/-- Python's `str.strip()`. -/
def pyStrip (s : String) : String :=
  String.mk (stripChars s.data)

/-- `first = first_element.text if first_element is not None else ""`
(the Python value, a string or `None`). -/
def givenText (author : XmlNode) : Option String :=
  match findChild "ForeName" author with
  | some e => e.text
  | none => some ""

/-- `last = last_element.text if last_element is not None else ""`. -/
def familyText (author : XmlNode) : Option String :=
  match findChild "LastName" author with
  | some e => e.text
  | none => some ""

/-- One author's joined name: `f"{first} {last}".strip()`. -/
def authorFull (author : XmlNode) : String :=
  pyStrip (pyFormat (givenText author) ++ " " ++ pyFormat (familyText author))

/-- The `authors` list built by the author loop: each nonempty joined name
is appended, in document order. -/
def authorsOf (article : XmlNode) : List String :=
  (findallDesc "Author" article).foldl
    (fun authors author =>
      let full := authorFull author
      if full ≠ "" then authors ++ [full] else authors)
    []

/-- `pmid = pmid_element.text if pmid_element is not None else "N/A"`
with `pmid_element = article.find(".//PMID")`. -/
def pmidOf (article : XmlNode) : Option String :=
  match findDesc "PMID" article with
  | some e => e.text
  | none => some "N/A"

/-- `title = ... if article.find(".//ArticleTitle") ... else "No title"`. -/
def titleOf (article : XmlNode) : Option String :=
  match findDesc "ArticleTitle" article with
  | some e => e.text
  | none => some "No title"

/-- `journal = ... if article.find(".//Journal/Title") ... else "No journal"`. -/
def journalOf (article : XmlNode) : Option String :=
  match findDescChild "Journal" "Title" article with
  | some e => e.text
  | none => some "No journal"

/-- `year = ... if article.find(".//PubDate/Year") ... else "Unknown"`. -/
def yearOf (article : XmlNode) : Option String :=
  match findDescChild "PubDate" "Year" article with
  | some e => e.text
  | none => some "Unknown"

/-- `pages = ... if article.find(".//MedlinePgn") ... else "N/A"`. -/
def pagesOf (article : XmlNode) : Option String :=
  match findDesc "MedlinePgn" article with
  | some e => e.text
  | none => some "N/A"

/-- Field extraction for one `PubmedArticle` node, mirroring the body of the
`try:` block in `get_papers`. -/
def extractRecord (article : XmlNode) : Record :=
  ⟨pmidOf article, titleOf article,
   String.intercalate ", " (authorsOf article),
   journalOf article, yearOf article, pagesOf article⟩

/-- The diagnostic printed when a record is skipped:
`f"Skipping one article due to error: {e}"`. -/
def skipMsg (e : String) : String :=
  "Skipping one article due to error: " ++ e

/-- The record loop of `get_papers`: each article is processed inside a
`try:`; on success the record is appended, on an exception the skip
diagnostic is printed and the loop continues.  Returns the record list and
the list of diagnostics, each in document order. -/
def processArticles (ext : XmlNode → Except String Record) :
    List XmlNode → List Record × List String
  | [] => ([], [])
  | a :: rest =>
    match ext a with
    | .ok r =>
      let (rs, ls) := processArticles ext rest
      (r :: rs, ls)
    | .error e =>
      let (rs, ls) := processArticles ext rest
      (rs, skipMsg e :: ls)

/-- The separator written between record blocks: `"-"*80`. -/
def dashRule : String := String.mk (List.replicate 80 '-')

/-- The text written to the file for one record: the five `f.write` calls of
the write loop, concatenated. -/
def recordBlock (paper : Record) : String :=
  "PMID: " ++ pyFormat paper.pmid ++ "\n" ++
  "Title: " ++ pyFormat paper.title ++ "\n" ++
  "Authors: " ++ paper.author_line ++ "\n" ++
  "Journal: " ++ pyFormat paper.journal ++ " (" ++ pyFormat paper.year ++
    "), pp. " ++ pyFormat paper.pages ++ "\n" ++
  "\n" ++ dashRule ++ "\n"

/-- The full contents written to `SUFU_literature.txt`: the write loop
appends one block per record, in list order. -/
def fileContents : List Record → String
  | [] => ""
  | r :: rest => recordBlock r ++ fileContents rest

/-- The external world of `get_papers`.  `esearch db term retmax sort`
models `Entrez.esearch` followed by `Entrez.read(...)["IdList"]` and returns
the identifier list; `efetch db id` models `Entrez.efetch(...).read()` and
returns the raw payload; `fromstring` models `ET.fromstring`.  An
`Except.error e` models the call raising an exception with message `e`. -/
structure Env where
  esearch : String → String → Nat → String → Except String (List String)
  efetch : String → String → Except String String
  fromstring : String → Except String XmlNode

/-- The observable outcome of one call to `get_papers`:
the console lines printed, the contents of `SUFU_literature.txt` after the
call (`none` when the file was never created and did not exist before), and
the uncaught exception, if any, that terminated the call. -/
structure Output where
  console : List String
  file : Option String
  uncaught : Option String
deriving Repr, DecidableEq

/-- `TextDownloader.get_papers(term, db, max_results)` run against
environment `env`, with `prior` the contents of `SUFU_literature.txt`
before the call.  The per-record body of the `try:` block is the fallible
extractor `ext` (the concrete non-raising data path is
`fun a => Except.ok (extractRecord a)`).  The write step opens the file
with mode "w", truncating `prior`. -/
def get_papers (env : Env) (ext : XmlNode → Except String Record)
    (prior : Option String) (term db : String) (max_results : Nat) : Output :=
  match env.esearch db term max_results "pub+date" with
  | .error e => ⟨["Searching for papers..."], prior, some e⟩
  | .ok id_list =>
    match env.efetch db (String.intercalate "," id_list) with
    | .error e => ⟨["Searching for papers..."], prior, some e⟩
    | .ok xml_data =>
      match env.fromstring xml_data with
      | .error e => ⟨["Searching for papers..."], prior, some e⟩
      | .ok root =>
        let (records, skips) := processArticles ext (findallDesc "PubmedArticle" root)
        ⟨"Searching for papers..." :: skips ++ ["Papers saved to SUFU_literature.txt"],
         some (fileContents records),
         none⟩

/-- The default arguments of `get_papers(self, term, db="pubmed", max_results=10)`. -/
def get_papersDefault (env : Env) (ext : XmlNode → Except String Record)
    (prior : Option String) (term : String) : Output :=
  get_papers env ext prior term "pubmed" 10

/-- The process-wide `Bio.Entrez` module configuration.  `email` is the
attribute assigned by `TextDownloader.__init__`; `tool` and `api_key` stand
for the rest of the module state, which `__init__` does not touch. -/
structure EntrezState where
  email : Option String
  tool : String
  api_key : Option String
deriving Repr, DecidableEq

/-- `TextDownloader.__init__(self, email)`: assigns `Entrez.email = email`
and nothing else.  A `TextDownloader` instance stores no per-instance data,
so the instance value is `Unit`. -/
def TextDownloader.init (email : String) (st : EntrezState) : Unit × EntrezState :=
  ((), { st with email := some email })

/-- The contact address a remote call made through any instance uses: the
current process-wide `Entrez.email`.  The instance argument is unused
because the class keeps no per-instance state. -/
def effectiveEmail (_inst : Unit) (st : EntrezState) : Option String :=
  st.email

/-- The skip diagnostic produced by one article's processing outcome, if any. -/
def errLog : Except String Record → Option String
  | .ok _ => none
  | .error e => some (skipMsg e)

/-- Prepend a character to the first segment of a segment list. -/
def consLine (c : Char) : List (List Char) → List (List Char)
  | [] => []
  | h :: t => (c :: h) :: t

/-- Split a character sequence at newline characters; a text ending in a
newline yields a trailing empty segment.  Observation function used to state
the line-oriented layout of the report file. -/
def splitNl : List Char → List (List Char)
  | [] => [[]]
  | c :: rest =>
    if c = '\n' then [] :: splitNl rest else consLine c (splitNl rest)

/-- All five rendered fields of a record are free of newline characters (the
source does no escaping, so this is the regime in which the layout is
line-oriented). -/
def newlineFree (r : Record) : Prop :=
  '\n' ∉ (pyFormat r.pmid).data ∧ '\n' ∉ (pyFormat r.title).data ∧
  '\n' ∉ r.author_line.data ∧ '\n' ∉ (pyFormat r.journal).data ∧
  '\n' ∉ (pyFormat r.year).data ∧ '\n' ∉ (pyFormat r.pages).data

instance decNewlineFree (r : Record) : Decidable (newlineFree r) := by
  unfold newlineFree
  infer_instance

/-- The four content lines of one record block, as character sequences. -/
def blockLines (r : Record) : List (List Char) :=
  [("PMID: " ++ pyFormat r.pmid).data,
   ("Title: " ++ pyFormat r.title).data,
   ("Authors: " ++ r.author_line).data,
   ("Journal: " ++ pyFormat r.journal ++ " (" ++ pyFormat r.year ++
     "), pp. " ++ pyFormat r.pages).data]

/-! ### Concrete sample data, used by the witness theorems -/

/-- An article node whose `PMID` element is missing and whose
`ArticleTitle` is present with text `"T1"`. -/
def artNoPmid : XmlNode :=
  .elem "PubmedArticle" none [.elem "ArticleTitle" (some "T1") []]

/-- An author node with no `ForeName` child and `LastName` text `"Doe"`. -/
def auNoGiven : XmlNode :=
  .elem "Author" none [.elem "LastName" (some "Doe") []]

/-- An author node with neither `ForeName` nor `LastName` child. -/
def auEmpty : XmlNode :=
  .elem "Author" none []

/-- An article whose `PMID` element is present but carries no text. -/
def artEmptyPmid : XmlNode :=
  .elem "PubmedArticle" none [.elem "PMID" none []]

/-- An author whose `ForeName` element is present but carries no text and
whose `LastName` text is `"Doe"`. -/
def auNoneGiven : XmlNode :=
  .elem "Author" none [.elem "ForeName" none [], .elem "LastName" (some "Doe") []]

/-- The per-record data path that never raises. -/
def extOk : XmlNode → Except String Record :=
  fun a => .ok (extractRecord a)

/-- A per-record extractor that raises exactly on articles whose node text
is "BAD" (modelling a record whose processing raises). -/
def extSel : XmlNode → Except String Record :=
  fun a => if a.text = some "BAD" then .error "boom" else .ok (extractRecord a)

/-- Three sample articles and a document containing them. -/
def artA : XmlNode :=
  .elem "PubmedArticle" (some "A") [.elem "PMID" (some "11") []]

def artB : XmlNode :=
  .elem "PubmedArticle" (some "BAD") []

def artC : XmlNode :=
  .elem "PubmedArticle" (some "C") [.elem "PMID" (some "33") []]

def sampleDoc : XmlNode :=
  .elem "PubmedArticleSet" none [artA, artB, artC]

/-- An environment whose remote calls always succeed and whose fetched
payload parses to `sampleDoc`. -/
def envDoc : Env :=
  ⟨fun _ _ _ _ => .ok ["11", "33"], fun _ _ => .ok "payload", fun _ => .ok sampleDoc⟩

/-- An environment whose search call raises. -/
def envFail : Env :=
  ⟨fun _ _ _ _ => .error "net down", fun _ _ => .error "net down",
   fun _ => .error "net down"⟩

/-- An environment whose search yields an empty identifier list and whose
fetched payload parses to a document with no record nodes. -/
def envEmpty : Env :=
  ⟨fun _ _ _ _ => .ok [], fun _ _ => .ok "empty",
   fun _ => .ok (.elem "PubmedArticleSet" none [])⟩

/-! ### Helper lemmas -/

lemma foldl_append_filter (f : XmlNode → String) (l : List XmlNode) (acc : List String) :
    l.foldl (fun authors author =>
        if f author ≠ "" then authors ++ [f author] else authors) acc
      = acc ++ (l.map f).filter (fun s => s ≠ "") := by
  induction l generalizing acc with
  | nil => simp
  | cons a l ih =>
    rw [List.foldl_cons, ih]
    by_cases h : f a = "" <;> simp [h, List.append_assoc]

lemma authorsOf_eq (article : XmlNode) :
    authorsOf article
      = ((findallDesc "Author" article).map authorFull).filter (fun s => s ≠ "") := by
  simpa [authorsOf] using foldl_append_filter authorFull (findallDesc "Author" article) []

lemma processArticles_eq (ext : XmlNode → Except String Record) (l : List XmlNode) :
    processArticles ext l
      = (l.filterMap (fun a => (ext a).toOption),
         l.filterMap (fun a => errLog (ext a))) := by
  induction l with
  | nil => rfl
  | cons a l ih =>
    cases h : ext a <;>
      simp [processArticles, h, ih, errLog, Except.toOption, List.filterMap_cons]

lemma filterMap_toOption_of_ok (ext : XmlNode → Except String Record)
    (l : List XmlNode) (h : ∀ b ∈ l, ext b = .ok (extractRecord b)) :
    l.filterMap (fun a => (ext a).toOption) = l.map extractRecord := by
  induction l with
  | nil => rfl
  | cons a l ih =>
    have ht := ih (fun b hb => h b (List.mem_cons_of_mem a hb))
    simp only [List.filterMap_cons, List.map_cons]
    rw [ht, h a (List.mem_cons_self a l)]
    rfl

lemma filterMap_errLog_of_ok (ext : XmlNode → Except String Record)
    (l : List XmlNode) (h : ∀ b ∈ l, ext b = .ok (extractRecord b)) :
    l.filterMap (fun a => errLog (ext a)) = [] := by
  induction l with
  | nil => rfl
  | cons a l ih =>
    have ht := ih (fun b hb => h b (List.mem_cons_of_mem a hb))
    simp only [List.filterMap_cons]
    rw [ht, h a (List.mem_cons_self a l)]
    rfl

lemma splitNl_ne_nil (l : List Char) : splitNl l ≠ [] := by
  induction l with
  | nil => simp [splitNl]
  | cons c rest ih =>
    simp only [splitNl]
    by_cases hc : c = '\n'
    · simp [hc]
    · cases h : splitNl rest with
      | nil => exact absurd h ih
      | cons a t => simp [hc, consLine]

lemma splitNl_append_line (a l : List Char) (h : '\n' ∉ a) :
    splitNl (a ++ '\n' :: l) = a :: splitNl l := by
  induction a with
  | nil => simp [splitNl]
  | cons c a ih =>
    have hc : c ≠ '\n' := fun hcc => h (hcc ▸ List.mem_cons_self c a)
    have ha : '\n' ∉ a := fun hm => h (List.mem_cons_of_mem c hm)
    rw [List.cons_append]
    simp only [splitNl, if_neg hc, ih ha, consLine]

lemma nl_not_mem_append {s t : String}
    (hs : '\n' ∉ s.data) (ht : '\n' ∉ t.data) : '\n' ∉ (s ++ t).data := by
  rw [String.data_append]
  simp [List.mem_append, hs, ht]

lemma splitNl_recordBlock (r : Record) (rest : List Char) (h : newlineFree r) :
    splitNl ((recordBlock r).data ++ rest)
      = blockLines r ++ ([] :: dashRule.data :: splitNl rest) := by
  obtain ⟨h1, h2, h3, h4, h5, h6⟩ := h
  have hP : '\n' ∉ ("PMID: " ++ pyFormat r.pmid).data :=
    nl_not_mem_append (by decide) h1
  have hT : '\n' ∉ ("Title: " ++ pyFormat r.title).data :=
    nl_not_mem_append (by decide) h2
  have hA : '\n' ∉ ("Authors: " ++ r.author_line).data :=
    nl_not_mem_append (by decide) h3
  have hJ : '\n' ∉ ("Journal: " ++ pyFormat r.journal ++ " (" ++ pyFormat r.year ++
      "), pp. " ++ pyFormat r.pages).data :=
    nl_not_mem_append (nl_not_mem_append (nl_not_mem_append (nl_not_mem_append
      (nl_not_mem_append (by decide) h4) (by decide)) h5) (by decide)) h6
  have hD : '\n' ∉ dashRule.data := by decide
  have hsplit : (recordBlock r).data ++ rest
      = ("PMID: " ++ pyFormat r.pmid).data ++ '\n' ::
        (("Title: " ++ pyFormat r.title).data ++ '\n' ::
         (("Authors: " ++ r.author_line).data ++ '\n' ::
          (("Journal: " ++ pyFormat r.journal ++ " (" ++ pyFormat r.year ++
            "), pp. " ++ pyFormat r.pages).data ++ '\n' ::
           '\n' :: (dashRule.data ++ '\n' :: rest)))) := by
    simp only [recordBlock, String.data_append, List.append_assoc]
    rfl
  rw [hsplit, splitNl_append_line _ _ hP, splitNl_append_line _ _ hT,
    splitNl_append_line _ _ hA, splitNl_append_line _ _ hJ]
  have hblank : splitNl ('\n' :: (dashRule.data ++ '\n' :: rest))
      = [] :: dashRule.data :: splitNl rest := by
    rw [show ('\n' :: (dashRule.data ++ '\n' :: rest))
        = [] ++ '\n' :: (dashRule.data ++ '\n' :: rest) from rfl,
      splitNl_append_line _ _ (by simp), splitNl_append_line _ _ hD]
  rw [hblank]
  rfl

lemma splitNl_fileContents (records : List Record)
    (h : ∀ r ∈ records, newlineFree r) :
    splitNl (fileContents records).data
      = records.flatMap (fun r => blockLines r ++ [[], dashRule.data]) ++ [[]] := by
  induction records with
  | nil => simp [fileContents, splitNl]
  | cons r rs ih =>
    have hr : newlineFree r := h r (List.mem_cons_self r rs)
    have hrs := ih (fun x hx => h x (List.mem_cons_of_mem r hx))
    rw [show fileContents (r :: rs) = recordBlock r ++ fileContents rs from rfl,
      String.data_append, splitNl_recordBlock r _ hr, hrs]
    simp [List.flatMap_cons, List.append_assoc]

lemma stripChars_eq_self (l : List Char)
    (h1 : l.dropWhile Char.isWhitespace = l)
    (h2 : l.reverse.dropWhile Char.isWhitespace = l.reverse) :
    stripChars l = l := by
  simp [stripChars, h1, h2]

lemma stripChars_cons_space (l : List Char) :
    stripChars (' ' :: l) = stripChars l := by
  simp [stripChars, List.dropWhile_cons]

lemma pyStrip_fixed {s : String} (h : stripChars s.data = s.data) :
    pyStrip s = s := by
  simp only [pyStrip, h]

lemma pyStrip_space_append (l : String) (h : stripChars l.data = l.data) :
    pyStrip (" " ++ l) = l := by
  simp only [pyStrip, String.data_append]
  rw [show (" " : String).data ++ l.data = ' ' :: l.data from rfl,
    stripChars_cons_space, h]

lemma dropWhile_append_of_fixed (L M : List Char)
    (hL : L.dropWhile Char.isWhitespace = L) (hne : L ≠ []) :
    (L ++ M).dropWhile Char.isWhitespace = L ++ M := by
  cases L with
  | nil => exact absurd rfl hne
  | cons x xs =>
    have hx : ¬(Char.isWhitespace x = true) := by
      have := List.dropWhile_eq_self_iff.mp hL
      simpa using this (by simp)
    rw [List.cons_append, List.dropWhile_cons_of_neg hx]

/-! ### Claim theorems -/

/-- C1: for every record node missing field X, extraction substitutes the
documented fallback for X ("N/A" for the identifier and pages, "No title",
"No journal", "Unknown" for the year), and every field whose element is
present is extracted as that element's text, with no fallback substituted. -/
theorem C1_field_fallbacks (article : XmlNode) :
    (findDesc "PMID" article = none → (extractRecord article).pmid = some "N/A") ∧
    (∀ e, findDesc "PMID" article = some e → (extractRecord article).pmid = e.text) ∧
    (findDesc "ArticleTitle" article = none →
      (extractRecord article).title = some "No title") ∧
    (∀ e, findDesc "ArticleTitle" article = some e →
      (extractRecord article).title = e.text) ∧
    (findDescChild "Journal" "Title" article = none →
      (extractRecord article).journal = some "No journal") ∧
    (∀ e, findDescChild "Journal" "Title" article = some e →
      (extractRecord article).journal = e.text) ∧
    (findDescChild "PubDate" "Year" article = none →
      (extractRecord article).year = some "Unknown") ∧
    (∀ e, findDescChild "PubDate" "Year" article = some e →
      (extractRecord article).year = e.text) ∧
    (findDesc "MedlinePgn" article = none → (extractRecord article).pages = some "N/A") ∧
    (∀ e, findDesc "MedlinePgn" article = some e →
      (extractRecord article).pages = e.text) := by
  refine ⟨?_, ?_, ?_, ?_, ?_, ?_, ?_, ?_, ?_, ?_⟩ <;>
    first
    | (intro h
       simp [extractRecord, pmidOf, titleOf, journalOf, yearOf, pagesOf, h])
    | (intro e h
       simp [extractRecord, pmidOf, titleOf, journalOf, yearOf, pagesOf, h])

/-- Witness for C1 at a concrete article: the `PMID` element is absent, so
the identifier falls back to "N/A", while the present `ArticleTitle` is
extracted exactly. -/
theorem C1_field_fallbacks_witness :
    (extractRecord artNoPmid).pmid = some "N/A" ∧
    (extractRecord artNoPmid).title = some "T1" :=
  ⟨(C1_field_fallbacks artNoPmid).1 rfl,
   (C1_field_fallbacks artNoPmid).2.2.2.1 (.elem "ArticleTitle" (some "T1") []) rfl⟩

/-- C2: the author line is the ", "-join, in document order, of the
trimmed "given family" names of the author nodes, keeping only names that
do not trim to empty; an absent given-name or family-name child renders as
empty text; an author whose given name renders empty contributes just the
family name with no leading space; an author whose names both render empty
trims to the empty name; no author nodes yield the empty author line. -/
theorem C2_author_line (article author : XmlNode) :
    ((extractRecord article).author_line
      = String.intercalate ", "
          (((findallDesc "Author" article).map authorFull).filter (fun s => s ≠ ""))) ∧
    (findChild "ForeName" author = none → pyFormat (givenText author) = "") ∧
    (findChild "LastName" author = none → pyFormat (familyText author) = "") ∧
    (pyFormat (givenText author) = "" → ∀ l, pyFormat (familyText author) = l →
      stripChars l.data = l.data → authorFull author = l) ∧
    (pyFormat (givenText author) = "" → pyFormat (familyText author) = "" →
      authorFull author = "") ∧
    (findallDesc "Author" article = [] → (extractRecord article).author_line = "") ∧
    (((findallDesc "Author" article).map authorFull).filter (fun s => s ≠ "") = [] →
      (extractRecord article).author_line = "") := by
  refine ⟨by rw [show (extractRecord article).author_line
      = String.intercalate ", " (authorsOf article) from rfl, authorsOf_eq],
    ?_, ?_, ?_, ?_, ?_, ?_⟩
  · intro h
    simp [givenText, h, pyFormat]
  · intro h
    simp [familyText, h, pyFormat]
  · intro hg l hl hstrip
    rw [authorFull, hg, hl]
    rw [show ("" : String) ++ " " ++ l = " " ++ l from rfl]
    exact pyStrip_space_append l hstrip
  · intro hg hl
    rw [authorFull, hg, hl]
    rfl
  · intro h
    rw [show (extractRecord article).author_line
      = String.intercalate ", " (authorsOf article) from rfl, authorsOf_eq, h]
    rfl
  · intro h
    rw [show (extractRecord article).author_line
      = String.intercalate ", " (authorsOf article) from rfl, authorsOf_eq, h]
    rfl

/-- Witness for C2 at concrete authors: an author with no given name yields
just "Doe" (no leading space), and an author with both names empty yields
the empty name. -/
theorem C2_author_line_witness :
    authorFull auNoGiven = "Doe" ∧ authorFull auEmpty = "" :=
  ⟨(C2_author_line artNoPmid auNoGiven).2.2.2.1 rfl "Doe" rfl (by decide),
   (C2_author_line artNoPmid auEmpty).2.2.2.2.1 rfl rfl⟩

/-- C10: a field whose element is present but carries no text extracts the
null text value (not the fallback) and renders as the literal "None"; a
present-but-textless `ForeName` contributes the literal "None" to the
joined author name. -/
theorem C10_present_empty_text (article author : XmlNode) :
    (∀ e, findDesc "PMID" article = some e → e.text = none →
      (extractRecord article).pmid = none ∧
      pyFormat (extractRecord article).pmid = "None") ∧
    (∀ e, findDesc "ArticleTitle" article = some e → e.text = none →
      (extractRecord article).title = none ∧
      pyFormat (extractRecord article).title = "None") ∧
    (∀ e, findDescChild "Journal" "Title" article = some e → e.text = none →
      (extractRecord article).journal = none ∧
      pyFormat (extractRecord article).journal = "None") ∧
    (∀ e, findDescChild "PubDate" "Year" article = some e → e.text = none →
      (extractRecord article).year = none ∧
      pyFormat (extractRecord article).year = "None") ∧
    (∀ e, findDesc "MedlinePgn" article = some e → e.text = none →
      (extractRecord article).pages = none ∧
      pyFormat (extractRecord article).pages = "None") ∧
    (∀ ef, findChild "ForeName" author = some ef → ef.text = none →
      authorFull author = pyStrip ("None " ++ pyFormat (familyText author))) ∧
    (∀ ef el l, findChild "ForeName" author = some ef → ef.text = none →
      findChild "LastName" author = some el → el.text = some l →
      l.data.dropWhile Char.isWhitespace = l.data →
      l.data.reverse.dropWhile Char.isWhitespace = l.data.reverse →
      l ≠ "" → authorFull author = "None " ++ l) := by
  refine ⟨?_, ?_, ?_, ?_, ?_, ?_, ?_⟩
  · intro e he ht
    constructor <;> simp [extractRecord, pmidOf, he, ht, pyFormat]
  · intro e he ht
    constructor <;> simp [extractRecord, titleOf, he, ht, pyFormat]
  · intro e he ht
    constructor <;> simp [extractRecord, journalOf, he, ht, pyFormat]
  · intro e he ht
    constructor <;> simp [extractRecord, yearOf, he, ht, pyFormat]
  · intro e he ht
    constructor <;> simp [extractRecord, pagesOf, he, ht, pyFormat]
  · intro ef he ht
    rw [authorFull, show givenText author = ef.text from by rw [givenText, he], ht]
    rw [show pyFormat none = "None" from rfl,
      show ("None" : String) ++ " " ++ pyFormat (familyText author)
        = "None " ++ pyFormat (familyText author) from rfl]
  · intro ef el l he ht hl htl h1 h2 hne
    rw [authorFull, show givenText author = ef.text from by rw [givenText, he], ht,
      show familyText author = el.text from by rw [familyText, hl], htl]
    rw [show pyFormat none = "None" from rfl, show pyFormat (some l) = l from rfl,
      show ("None" : String) ++ " " ++ l = "None " ++ l from rfl]
    have hdata : ("None " ++ l).data = 'N' :: 'o' :: 'n' :: 'e' :: ' ' :: l.data := by
      rw [String.data_append]
      rfl
    have hldata : l.data ≠ [] := by
      intro hl0
      exact hne (by cases l with | mk d => simp at hl0; simp [hl0])
    have hrev : ("None " ++ l).data.reverse
        = l.data.reverse ++ [' ', 'e', 'n', 'o', 'N'] := by
      rw [hdata]
      simp
    refine pyStrip_fixed (stripChars_eq_self _ ?_ ?_)
    · rw [hdata]
      exact List.dropWhile_cons_of_neg (by decide)
    · rw [hrev]
      exact dropWhile_append_of_fixed _ _ h2 (by simpa using hldata)

/-- Witness for C10 at concrete nodes: a textless `PMID` element renders
as "None" and a textless `ForeName` joins as "None Doe". -/
theorem C10_present_empty_text_witness :
    ((extractRecord artEmptyPmid).pmid = none ∧
      pyFormat (extractRecord artEmptyPmid).pmid = "None") ∧
    authorFull auNoneGiven = "None Doe" :=
  ⟨(C10_present_empty_text artEmptyPmid auNoneGiven).1
      (.elem "PMID" none []) rfl rfl,
   (C10_present_empty_text artEmptyPmid auNoneGiven).2.2.2.2.2.2
      (.elem "ForeName" none []) (.elem "LastName" (some "Doe") []) "Doe"
      rfl rfl rfl rfl (by decide) (by decide) (by decide)⟩


/-- C3: if processing one record node raises while every other record
processes cleanly, only that record is dropped: the run does not terminate,
exactly one skip diagnostic (fixed prefix plus the exception's text) is
printed between the two progress lines, and all other records are written
in order. -/
theorem C3_per_record_failure (env : Env) (ext : XmlNode → Except String Record)
    (prior : Option String) (term db : String) (max_results : Nat)
    (ids : List String) (xml : String) (root : XmlNode)
    (pre post : List XmlNode) (a : XmlNode) (e : String)
    (hs : env.esearch db term max_results "pub+date" = .ok ids)
    (hf : env.efetch db (String.intercalate "," ids) = .ok xml)
    (hp : env.fromstring xml = .ok root)
    (hsplit : findallDesc "PubmedArticle" root = pre ++ a :: post)
    (ha : ext a = .error e)
    (hok : ∀ b ∈ pre ++ post, ext b = .ok (extractRecord b)) :
    get_papers env ext prior term db max_results
      = ⟨["Searching for papers...", skipMsg e, "Papers saved to SUFU_literature.txt"],
         some (fileContents ((pre ++ post).map extractRecord)), none⟩ := by
  have hpre : ∀ b ∈ pre, ext b = .ok (extractRecord b) :=
    fun b hb => hok b (List.mem_append_left post hb)
  have hpost : ∀ b ∈ post, ext b = .ok (extractRecord b) :=
    fun b hb => hok b (List.mem_append_right pre hb)
  simp only [get_papers, hs, hf, hp, processArticles_eq, hsplit]
  rw [List.filterMap_append, List.filterMap_append,
    List.filterMap_cons, List.filterMap_cons, ha,
    filterMap_toOption_of_ok ext pre hpre, filterMap_errLog_of_ok ext pre hpre,
    filterMap_toOption_of_ok ext post hpost, filterMap_errLog_of_ok ext post hpost]
  simp only [Except.toOption, errLog, List.nil_append, List.map_append]
  rfl

/-- Witness for C3: in a three-article document where only the middle
article's processing raises, the run prints one skip line and writes the
first and third records. -/
theorem C3_per_record_failure_witness :
    get_papers envDoc extSel none "SUFU" "pubmed" 10
      = ⟨["Searching for papers...", skipMsg "boom",
          "Papers saved to SUFU_literature.txt"],
         some (fileContents ([artA, artC].map extractRecord)), none⟩ :=
  C3_per_record_failure envDoc extSel none "SUFU" "pubmed" 10
    ["11", "33"] "payload" sampleDoc [artA] [artC] artB "boom"
    rfl rfl rfl rfl rfl (by intro b hb; fin_cases hb <;> rfl)

/-- C4: under a successful search, fetch and parse, the sequence of records
written to the output file is the document's record-node sequence, in
order, minus exactly the records whose processing raised. -/
theorem C4_record_order (env : Env) (ext : XmlNode → Except String Record)
    (prior : Option String) (term db : String) (max_results : Nat)
    (ids : List String) (xml : String) (root : XmlNode)
    (hs : env.esearch db term max_results "pub+date" = .ok ids)
    (hf : env.efetch db (String.intercalate "," ids) = .ok xml)
    (hp : env.fromstring xml = .ok root) :
    (get_papers env ext prior term db max_results).file
      = some (fileContents
          ((findallDesc "PubmedArticle" root).filterMap (fun a => (ext a).toOption))) := by
  simp only [get_papers, hs, hf, hp, processArticles_eq]

/-- Witness for C4 at the concrete sample environment. -/
theorem C4_record_order_witness :
    (get_papers envDoc extSel none "SUFU" "pubmed" 10).file
      = some (fileContents
          ((findallDesc "PubmedArticle" sampleDoc).filterMap
            (fun a => (extSel a).toOption))) :=
  C4_record_order envDoc extSel none "SUFU" "pubmed" 10
    ["11", "33"] "payload" sampleDoc rfl rfl rfl

/-- C5: when no rendered field contains a newline, the file splits into, per
record in order, its four content lines ("PMID: …", "Title: …",
"Authors: …", "Journal: … (…), pp. …"), a blank line, and the separator
line, which consists of exactly 80 dash characters; the final newline
leaves one trailing empty segment. -/
theorem C5_write_layout (records : List Record)
    (h : ∀ r ∈ records, newlineFree r) :
    splitNl (fileContents records).data
      = records.flatMap (fun r => blockLines r ++ [[], dashRule.data]) ++ [[]] ∧
    dashRule.data.length = 80 ∧ (∀ c ∈ dashRule.data, c = '-') :=
  ⟨splitNl_fileContents records h, by decide, by decide⟩

/-- Witness for C5 at a one-record file. -/
theorem C5_write_layout_witness :
    splitNl (fileContents [extractRecord artNoPmid]).data
      = [extractRecord artNoPmid].flatMap
          (fun r => blockLines r ++ [[], dashRule.data]) ++ [[]] ∧
    dashRule.data.length = 80 ∧ (∀ c ∈ dashRule.data, c = '-') :=
  C5_write_layout [extractRecord artNoPmid] (by decide)

/-- C6: if the search call, the fetch call or the parse raises, the
exception is uncaught (it terminates the run) and the output file keeps
its prior state: it is never created or truncated. -/
theorem C6_fatal_failures (env : Env) (ext : XmlNode → Except String Record)
    (prior : Option String) (term db : String) (max_results : Nat) (e : String) :
    (env.esearch db term max_results "pub+date" = .error e →
      get_papers env ext prior term db max_results
        = ⟨["Searching for papers..."], prior, some e⟩) ∧
    (∀ ids, env.esearch db term max_results "pub+date" = .ok ids →
      env.efetch db (String.intercalate "," ids) = .error e →
      get_papers env ext prior term db max_results
        = ⟨["Searching for papers..."], prior, some e⟩) ∧
    (∀ ids xml, env.esearch db term max_results "pub+date" = .ok ids →
      env.efetch db (String.intercalate "," ids) = .ok xml →
      env.fromstring xml = .error e →
      get_papers env ext prior term db max_results
        = ⟨["Searching for papers..."], prior, some e⟩) := by
  refine ⟨?_, ?_, ?_⟩
  · intro hs
    simp only [get_papers, hs]
  · intro ids hs hf
    simp only [get_papers, hs, hf]
  · intro ids xml hs hf hp
    simp only [get_papers, hs, hf, hp]

/-- Witness for C6: with a failing search endpoint the run aborts and a
pre-existing output file is left untouched. -/
theorem C6_fatal_failures_witness :
    get_papers envFail extOk (some "old contents") "SUFU" "pubmed" 10
      = ⟨["Searching for papers..."], some "old contents", some "net down"⟩ :=
  (C6_fatal_failures envFail extOk (some "old contents") "SUFU" "pubmed" 10
    "net down").1 rfl

/-- C7: with identical remote responses the produced file does not depend
on the file's prior contents (full overwrite, nothing appended, no
run-varying data), so a second run reproduces the first run's file
byte for byte. -/
theorem C7_idempotent (env : Env) (ext : XmlNode → Except String Record)
    (term db : String) (max_results : Nat) :
    (∀ prior,
      (get_papers env ext (get_papers env ext prior term db max_results).file
        term db max_results).file
        = (get_papers env ext prior term db max_results).file) ∧
    (∀ p1 p2, (get_papers env ext p1 term db max_results).uncaught = none →
      (get_papers env ext p1 term db max_results).file
        = (get_papers env ext p2 term db max_results).file) := by
  constructor
  · intro prior
    rcases hs : env.esearch db term max_results "pub+date" with e | ids
    · simp only [get_papers, hs]
    · rcases hf : env.efetch db (String.intercalate "," ids) with e | xml
      · simp only [get_papers, hs, hf]
      · rcases hp : env.fromstring xml with e | root
        · simp only [get_papers, hs, hf, hp]
        · simp only [get_papers, hs, hf, hp]
  · intro p1 p2 hn
    rcases hs : env.esearch db term max_results "pub+date" with e | ids
    · rw [get_papers, hs] at hn; exact absurd hn (by simp)
    · rcases hf : env.efetch db (String.intercalate "," ids) with e | xml
      · rw [get_papers, hs] at hn; simp only [hf] at hn; exact absurd hn (by simp)
      · rcases hp : env.fromstring xml with e | root
        · rw [get_papers, hs] at hn; simp only [hf, hp] at hn
          exact absurd hn (by simp)
        · simp only [get_papers, hs, hf, hp]

/-- Witness for C7: running again on the sample environment, starting from
the first run's file, reproduces it; and the produced file is independent
of the pre-existing contents. -/
theorem C7_idempotent_witness :
    (get_papers envDoc extOk (get_papers envDoc extOk none "SUFU" "pubmed" 10).file
        "SUFU" "pubmed" 10).file
      = (get_papers envDoc extOk none "SUFU" "pubmed" 10).file ∧
    (get_papers envDoc extOk none "SUFU" "pubmed" 10).file
      = (get_papers envDoc extOk (some "old") "SUFU" "pubmed" 10).file :=
  ⟨(C7_idempotent envDoc extOk "SUFU" "pubmed" 10).1 none,
   (C7_idempotent envDoc extOk "SUFU" "pubmed" 10).2 none (some "old") rfl⟩

/-- C8: when the search step yields an empty identifier list, the fetch
step still executes with the empty string as its joined identifier
parameter, the run completes without an uncaught exception, and the output
file is created — empty when the fetched document has no record nodes. -/
theorem C8_empty_idlist (env : Env) (ext : XmlNode → Except String Record)
    (prior : Option String) (term db : String) (max_results : Nat)
    (xml : String) (root : XmlNode)
    (hs : env.esearch db term max_results "pub+date" = .ok [])
    (hf : env.efetch db "" = .ok xml)
    (hp : env.fromstring xml = .ok root) :
    (get_papers env ext prior term db max_results).uncaught = none ∧
    (get_papers env ext prior term db max_results).file
      = some (fileContents ((findallDesc "PubmedArticle" root).filterMap
          (fun a => (ext a).toOption))) ∧
    (findallDesc "PubmedArticle" root = [] →
      (get_papers env ext prior term db max_results).file = some "") := by
  have hjoin : String.intercalate "," ([] : List String) = "" := rfl
  refine ⟨?_, ?_, ?_⟩
  · simp only [get_papers, hs, hjoin, hf, hp]
  · simp only [get_papers, hs, hjoin, hf, hp, processArticles_eq]
  · intro hroot
    simp only [get_papers, hs, hjoin, hf, hp, processArticles_eq, hroot,
      List.filterMap_nil]
    rfl

/-- Witness for C8: an environment returning no identifiers still fetches
(with the empty joined parameter) and produces an empty report file. -/
theorem C8_empty_idlist_witness :
    (get_papers envEmpty extOk none "SUFU" "pubmed" 10).uncaught = none ∧
    (get_papers envEmpty extOk none "SUFU" "pubmed" 10).file = some "" :=
  ⟨(C8_empty_idlist envEmpty extOk none "SUFU" "pubmed" 10 "empty"
      (.elem "PubmedArticleSet" none []) rfl rfl rfl).1,
   (C8_empty_idlist envEmpty extOk none "SUFU" "pubmed" 10 "empty"
      (.elem "PubmedArticleSet" none []) rfl rfl rfl).2.2 rfl⟩

/-- C9: the constructor accepts any contact string, its only effect is to
set the process-wide `Entrez.email` (the rest of the Entrez configuration
is untouched), and because instances hold no per-instance state, a call
through the first instance after a second instance is constructed uses the
most recently set contact string. -/
theorem C9_global_email_config (e1 e2 : String) (st : EntrezState) :
    ((TextDownloader.init e1 st).2.email = some e1) ∧
    ((TextDownloader.init e1 st).2.tool = st.tool) ∧
    ((TextDownloader.init e1 st).2.api_key = st.api_key) ∧
    (effectiveEmail (TextDownloader.init e1 st).1
        (TextDownloader.init e2 (TextDownloader.init e1 st).2).2 = some e2) ∧
    ((TextDownloader.init e2 (TextDownloader.init e1 st).2).2.tool = st.tool) ∧
    ((TextDownloader.init e2 (TextDownloader.init e1 st).2).2.api_key = st.api_key) :=
  ⟨rfl, rfl, rfl, rfl, rfl, rfl⟩
